import Mathlib

/-!
Verification of the mask-driven geometric transform pipeline of the Strix
repository (src/medlp/utilities/transforms.py).

The Python transforms are shallowly embedded as Lean functions.  NumPy
arrays are modelled by the structure NDA: a shape (list of axis lengths)
together with a flat C-order getter.  Python exceptions are modelled by the
PyErr error type threaded through Except.  Machine integers are modelled by
Int (Python ints are unbounded, and all float computations appearing in the
code, such as int(np.ceil(dim / k) * k) and int(center - size / 2), are
exact on the integer-and-half values that occur, so they are embedded by
exact integer arithmetic).

External collaborators:
  - scipy.ndimage binary morphology is embedded from its documented
    semantics (a structuring-element pass; iterations < 1 means repeat
    until the result no longer changes),
  - monai fall_back_tuple(user, default, func=lambda x: x and x > 0)
    replaces every non-positive component by the default component,
  - utils_cw.get_connected_comp (the keep-largest component filter) is an
    external package function and is threaded through as an opaque function
    parameter named klf,
  - bbox_2D / bbox_3D live in medlp/utilities/utils.py, which is part of
    this repository but not among the provided sources; they are modelled
    from the spec (minimal inclusive bounding box of the nonzero voxels,
    spec section 4.1).
-/

/-- Python exceptions raised by the modelled code paths. -/
inductive PyErr where
  | assertionError
  | nameError
  | valueError
  | indexError
  | keyError
deriving DecidableEq, Repr

/-- A NumPy ndarray: a shape together with a flat C-order getter.
Only the cells with flat index below the shape product are meaningful. -/
structure NDA where
  shape : List Nat
  get : Nat → Int

/-- Number of elements of an array (product of the axis lengths). -/
def ndaSize (a : NDA) : Nat := a.shape.prod

/-- Embedding of np.unique(a) as the set of values occurring in a. -/
def uniqSet (a : NDA) : Finset Int := (Finset.range (ndaSize a)).image a.get

/-- Embedding of np.unique(mask[mask > 0]): the distinct positive values. -/
def posIds (a : NDA) : Finset Int := (uniqSet a).filter (fun v => 0 < v)

/-- Embedding of ndarray.squeeze(): all axes of length 1 are removed.  The
flat C-order enumeration of the cells is unchanged by removing length-1
axes, so the getter is kept as is. -/
def squeezeA (a : NDA) : NDA := ⟨a.shape.filter (fun d => d ≠ 1), a.get⟩

/-- Embedding of np.expand_dims(a, axis): a length-1 axis is inserted at
position axis.  The flat C-order enumeration is unchanged. -/
def expandDims (a : NDA) (axis : Nat) : NDA := ⟨a.shape.insertIdx axis 1, a.get⟩

/-- Effective index of a Python slice endpoint x on an axis of length n:
negative endpoints count from the end, and endpoints are clamped to
[0, n].  This is the NumPy basic-slicing rule for step 1. -/
def npIdx (x : Int) (n : Nat) : Nat :=
  if x < 0 then ((n : Int) + x).toNat else min x.toNat n

/-- Length of the Python slice a[lo:hi] on an axis of length n. -/
def sliceLen (lo hi : Int) (n : Nat) : Nat := npIdx hi n - npIdx lo n

/-- Shape of an array of shape s sliced with one (lo, hi) pair per leading
axis; trailing axes are kept whole, as in NumPy basic indexing. -/
def cropShape (s : List Nat) (sl : List (Int × Int)) : List Nat :=
  (List.zipWith (fun (p : Int × Int) n => sliceLen p.1 p.2 n) sl s) ++ s.drop sl.length

/-- Decode a flat C-order index into a multi-index for the given shape. -/
def decodeIdx : List Nat → Nat → List Nat
  | [], _ => []
  | _ :: ds, i => (i / ds.prod) :: decodeIdx ds (i % ds.prod)

/-- Encode a multi-index into a flat C-order index for the given shape. -/
def encodeIdx : List Nat → List Nat → Nat
  | _ :: ds, i :: is => i * ds.prod + encodeIdx ds is
  | _, _ => 0

/-- Embedding of NumPy basic slicing a[lo0:hi0, lo1:hi1, ...] applied to
the leading axes of a: the shape is cropShape, and cell (i0, ..., ik) of
the result is cell (start0 + i0, ..., startk + ik, rest unchanged) of a. -/
def cropA (a : NDA) (sl : List (Int × Int)) : NDA :=
  let starts := List.zipWith (fun (p : Int × Int) n => npIdx p.1 n) sl a.shape
  let newShape := cropShape a.shape sl
  ⟨newShape, fun i =>
    a.get (encodeIdx a.shape
      (List.zipWith (fun x y => x + y) (decodeIdx newShape i)
        (starts ++ List.replicate (a.shape.length - sl.length) 0)))⟩

/-- Shapes of the (image, mask) outputs of a modelled transform call, or
none when the call raised. -/
def exceptShapes (r : Except PyErr (NDA × NDA)) : Option (List Nat × List Nat) :=
  match r with
  | .ok (a, b) => some (a.shape, b.shape)
  | .error _ => none

/-- Observer telling whether a modelled call raised NameError. -/
def isNameError (r : Except PyErr (NDA × NDA)) : Bool :=
  match r with
  | .error .nameError => true
  | _ => false

/-- One component of monai fall_back_tuple(k, (1, ...)): a component that
is falsy or not positive is replaced by the default component 1. -/
def fallback1 (k : Int) : Int := if 0 < k then k else 1

/-- Ceiling division on Int, the exact value of np.ceil(a / b) for b > 0
(the float division is exact on the integer ranges that occur). -/
def ceilDivI (a b : Int) : Int := -((-a) / b)

/-- One axis of divisible_size (transforms.py lines 423-429 and 526-532):
new_dim = int(np.ceil(dim / k_d) * k_d) if k_d > 0 else dim. -/
def divRound (k d : Int) : Int := if 0 < k then ceilDivI d k * k else d

/-- Embedding of RandMarginalCropByMaskD.divisible_size (lines 423-429; the
method of RandMarginalCrop2DByMaskD at lines 526-532 is identical): the
per-axis divisor list is first refined by fall_back_tuple against the
all-ones default, then each extent is rounded up to a multiple. -/
def divisible_size (ks : List Int) (dims : List Int) : List Int :=
  List.zipWith (fun k d => divRound (fallback1 k) d) ks dims

/-- Embedding of int(center - size / 2) and int(center + size / 2)
(transforms.py lines 472-475, 485-490 and analogues): the float value
(2 * c ± s) / 2 is exact and int() truncates toward zero, which is
Int.tdiv by 2. -/
def cropLo (c s : Int) : Int := Int.tdiv (2 * c - s) 2

/-- Upper slice endpoint int(center + size / 2); see cropLo. -/
def cropHi (c s : Int) : Int := Int.tdiv (2 * c + s) 2

/-- Support of a 3D array of shape [d0, d1, d2]: the coordinates of the
nonzero cells. -/
def support3 (a : NDA) (d0 d1 d2 : Nat) : Finset (Nat × Nat × Nat) :=
  ((Finset.range d0) ×ˢ (Finset.range d1) ×ˢ (Finset.range d2)).filter
    (fun p => a.get ((p.1 * d1 + p.2.1) * d2 + p.2.2) ≠ 0)

/-- Modelled from the spec: bbox_3D from medlp/utilities/utils.py is not
among the provided sources; spec section 4.1 specifies the minimal
inclusive bounding box of the foreground (nonzero) voxels, failing on an
empty mask.  Returns (rmin, rmax, cmin, cmax, zmin, zmax), inclusive. -/
def bbox_3D (a : NDA) : Option (Nat × Nat × Nat × Nat × Nat × Nat) :=
  match a.shape with
  | [d0, d1, d2] =>
    let s := support3 a d0 d1 d2
    if h : s.Nonempty then
      some ((s.image (fun p => p.1)).min' (h.image _),
            (s.image (fun p => p.1)).max' (h.image _),
            (s.image (fun p => p.2.1)).min' (h.image _),
            (s.image (fun p => p.2.1)).max' (h.image _),
            (s.image (fun p => p.2.2)).min' (h.image _),
            (s.image (fun p => p.2.2)).max' (h.image _))
    else none
  | _ => none

/-- Support of a 2D array of shape [d0, d1]. -/
def support2 (a : NDA) (d0 d1 : Nat) : Finset (Nat × Nat) :=
  ((Finset.range d0) ×ˢ (Finset.range d1)).filter
    (fun p => a.get (p.1 * d1 + p.2) ≠ 0)

/-- Modelled from the spec: bbox_2D from medlp/utilities/utils.py is not
among the provided sources; spec section 4.1 specifies the minimal
inclusive bounding box (rmin, rmax, cmin, cmax) of the nonzero pixels. -/
def bbox_2D (a : NDA) : Option (Nat × Nat × Nat × Nat) :=
  match a.shape with
  | [d0, d1] =>
    let s := support2 a d0 d1
    if h : s.Nonempty then
      some ((s.image (fun p => p.1)).min' (h.image _),
            (s.image (fun p => p.1)).max' (h.image _),
            (s.image (fun p => p.2)).min' (h.image _),
            (s.image (fun p => p.2)).max' (h.image _))
    else none
  | _ => none

/-- Single-channel instance selection (transforms.py lines 316, 452, 556):
np.where(np.in1d(mask, id), True, False).reshape(mask.shape), a boolean
array of the same shape that is True exactly on the cells equal to id. -/
def in1dMask (img : NDA) (id : Int) : NDA :=
  ⟨img.shape, fun i => if img.get i = id then 1 else 0⟩

/-- One-hot channel selection (transforms.py lines 314, 450, 554):
img[[ch]] keeps a leading axis of length 1 and takes channel ch. -/
def takeChannel (img : NDA) (rest : List Nat) (ch : Nat) : NDA :=
  ⟨1 :: rest, fun i => img.get (ch * rest.prod + i)⟩

/-- Embedding of the submask selection shared by RandLabelToMask.__call__
(lines 313-316) and the marginal croppers (lines 449-452, 553-556): the
one-hot branch is taken when the leading axis is longer than 1, with the
NumPy rules for a fancy index (negative indices count from the end,
out-of-range indices raise IndexError); otherwise the value-equality mask
is built.  A rank-0 input would fail the shape[0] lookup. -/
def selectMask (img : NDA) (id : Int) : Except PyErr NDA :=
  match img.shape with
  | [] => .error .indexError
  | c :: rest =>
    if 1 < c then
      let eff : Int := if id < 0 then (c : Int) + id else id
      if 0 ≤ eff ∧ eff < (c : Int) then .ok (takeChannel img rest eff.toNat)
      else .error .indexError
    else .ok (in1dMask img id)

/-- Embedding of the keep_largest step (transforms.py lines 464-465,
568-569): get_connected_comp comes from the external utils_cw package, so
it is threaded through as the opaque function parameter klf. -/
def applyKeepLargest (keepLargest : Bool) (klf : NDA → NDA) (m : NDA) : NDA :=
  if keepLargest then klf m else m

/-- Embedding of the label-count precondition of the marginal croppers
(transforms.py lines 444 and 547): len(np.unique(mask)) - 1 is compared
with the label-dictionary cardinality. -/
def labelAssertOK (mask : NDA) (labelCount : Nat) : Bool :=
  ((uniqSet mask).card : Int) - 1 = (labelCount : Int)

/-- Embedding of RandMarginalCropByMaskD.__call__ (transforms.py lines
431-496) for one key of the data dictionary.  The label dictionary is
represented by its key set labelKeys (step 495 raises KeyError when the
selected id is not a key; the looked-up value itself is not needed by the
claims).  The outcome of self.randomize (line 446), a value chosen from
np.unique(mask[mask > 0]), is passed in as the parameter draw; an empty
candidate set makes np.random.choice raise, modelled as ValueError.  The
local variable new_data of the Python code is only assigned inside the
channel-squeeze branch (lines 458-462); it is modelled by an Option that
starts as none, and the slicing step raises NameError when it is still
none there.  Returns the new (d[key], d[mask_key]) pair. -/
def randMarginalCropByMaskD (data mask : NDA) (labelKeys : Finset Int)
    (margin k : Int) (keepLargest : Bool) (klf : NDA → NDA) (draw : Int) :
    Except PyErr (NDA × NDA) :=
  if data.shape ≠ mask.shape then .error .assertionError
  else if ¬ labelAssertOK mask labelKeys.card then .error .assertionError
  else if posIds mask = ∅ then .error .valueError
  else
    match selectMask mask draw with
    | .error e => .error e
    | .ok nm0 =>
      let ndimS := (nm0.shape.filter (fun d => d ≠ 1)).length
      if ¬ (ndimS = 2 ∨ ndimS = 3) then .error .assertionError
      else
        let cd := nm0.shape.indexOf 1
        let nm1 := if ndimS ≠ nm0.shape.length then squeezeA nm0 else nm0
        let nd : Option NDA :=
          if ndimS ≠ nm0.shape.length then some (squeezeA data) else none
        let nm2 := applyKeepLargest keepLargest klf nm1
        if ndimS = 2 then
          match bbox_2D nm2 with
          | none => .error .indexError
          | some (r0, r1, c0, c1) =>
            let rmin := (r0 : Int) - margin
            let rmax := (r1 : Int) + margin
            let cmin := (c0 : Int) - margin
            let cmax := (c1 : Int) + margin
            let cs := divisible_size [k, k] [rmax - rmin, cmax - cmin]
            let s0 := cs.headD 0
            let s1 := (cs.drop 1).headD 0
            let ctr0 := (rmin + rmax) / 2
            let ctr1 := (cmin + cmax) / 2
            match nd with
            | none => .error .nameError
            | some ndv =>
              let sl := [(cropLo ctr0 s0, cropHi ctr0 s0),
                         (cropLo ctr1 s1, cropHi ctr1 s1)]
              let dk := cropA ndv sl
              let dm := cropA nm2 sl
              let dk2 := if ndimS ≠ nm0.shape.length then expandDims dk cd else dk
              let dm2 := if ndimS ≠ nm0.shape.length then expandDims dm cd else dm
              if draw ∈ labelKeys then .ok (dk2, dm2) else .error .keyError
        else
          -- the rank assertion leaves only input_ndim == 3 here
          match bbox_3D nm2 with
          | none => .error .indexError
          | some (r0, r1, c0, c1, z0, z1) =>
            let rmin := (r0 : Int) - margin
            let rmax := (r1 : Int) + margin
            let cmin := (c0 : Int) - margin
            let cmax := (c1 : Int) + margin
            let zmin := (z0 : Int) - margin
            let zmax := (z1 : Int) + margin
            let cs := divisible_size [k, k, k]
              [rmax - rmin, cmax - cmin, zmax - zmin]
            let s0 := cs.headD 0
            let s1 := (cs.drop 1).headD 0
            let s2 := (cs.drop 2).headD 0
            let ctr0 := (rmin + rmax) / 2
            let ctr1 := (cmin + cmax) / 2
            let ctr2 := (zmin + zmax) / 2
            match nd with
            | none => .error .nameError
            | some ndv =>
              let sl := [(cropLo ctr0 s0, cropHi ctr0 s0),
                         (cropLo ctr1 s1, cropHi ctr1 s1),
                         (cropLo ctr2 s2, cropHi ctr2 s2)]
              let dk := cropA ndv sl
              let dm := cropA nm2 sl
              let dk2 := if ndimS ≠ nm0.shape.length then expandDims dk cd else dk
              let dm2 := if ndimS ≠ nm0.shape.length then expandDims dm cd else dm
              if draw ∈ labelKeys then .ok (dk2, dm2) else .error .keyError

/-- Embedding of the instance-id selection of RandMarginalCrop2DByMaskD
(transforms.py lines 518, 549-550 together with randomize, lines 520-524):
self.select_msk starts as the constructor argument (default None) and
randomize, which overwrites self.select_msk with the fresh draw, is invoked
only while self.select_msk is None.  Given the stored state and the value
the random generator would produce, returns the state after the call and
the id the call actually uses. -/
def rand2DStep (state : Option Int) (draw : Int) : Option Int × Int :=
  match state with
  | none => (some draw, draw)
  | some v => (some v, v)

/-- Ids used by successive RandMarginalCrop2DByMaskD calls on one instance,
starting from the stored select_msk state, given the per-call draws. -/
def rand2DTrace : Option Int → List Int → List Int
  | _, [] => []
  | st, d :: ds =>
    let p := rand2DStep st d
    p.2 :: rand2DTrace p.1 ds

/-- Embedding of the instance-id selection of RandMarginalCropByMaskD
(transforms.py line 446 with randomize, lines 417-421): randomize is
invoked unconditionally, so every call uses its own fresh draw. -/
def rand3DStep (_state : Option Int) (draw : Int) : Option Int × Int :=
  (some draw, draw)

/-- Ids used by successive RandMarginalCropByMaskD calls on one instance. -/
def rand3DTrace : Option Int → List Int → List Int
  | _, [] => []
  | st, d :: ds =>
    let p := rand3DStep st d
    p.2 :: rand3DTrace p.1 ds

/-- Embedding of random.choice(range(zmin + (zmax - zmin) // 3,
zmax - (zmax - zmin) // 3)), the through-plane slice candidates of
RandMarginalCrop2DByMaskD (transforms.py line 583). -/
def zChoices (zmin zmax : Int) : Finset Int :=
  Finset.Ico (zmin + (zmax - zmin) / 3) (zmax - (zmax - zmin) / 3)

/-- A 2D binary image of fixed extent, the carrier for the scipy binary
morphology embedding; out-of-range cells read as the border value 0. -/
def bgridGet {m n : Nat} (g : Fin m → Fin n → Bool) (i j : Int) : Bool :=
  if hi : 0 ≤ i ∧ i < (m : Int) then
    if hj : 0 ≤ j ∧ j < (n : Int) then
      g ⟨i.toNat, by omega⟩ ⟨j.toNat, by omega⟩
    else false
  else false

/-- One pass of scipy.ndimage.binary_dilation with the structuring element
generate_binary_structure(2, 1) (the face-connectivity cross) and border
value 0: a cell is set when the input is set there or at one of its four
face neighbours. -/
def dilStep {m n : Nat} (g : Fin m → Fin n → Bool) : Fin m → Fin n → Bool :=
  fun i j =>
    bgridGet g i j || bgridGet g (i - 1) j || bgridGet g (i + 1) j ||
      bgridGet g i (j - 1) || bgridGet g i (j + 1)

/-- Fuelled fixpoint iteration: apply f until the value stops changing or
the fuel runs out.  With fuel of at least the number of cells this reaches
the fixpoint of the monotone dilation pass exactly as the unbounded scipy
loop does, since every non-stable pass turns on at least one new cell. -/
def iterFix {α : Type} [DecidableEq α] (f : α → α) : Nat → α → α
  | 0, x => x
  | fuel + 1, x => if f x = x then x else iterFix f fuel (f x)

/-- Embedding of scipy.ndimage.binary_dilation(img, structure, iterations):
the documented semantics repeats the pass iterations times, and when
iterations is less than 1 it repeats the pass until the result does not
change anymore. -/
def binaryDilation {m n : Nat} (g : Fin m → Fin n → Bool) (iterations : Int) :
    Fin m → Fin n → Bool :=
  if iterations < 1 then iterFix dilStep (m * n + 1) g
  else dilStep^[iterations.toNat] g

/-- Embedding of the binary dilation branch of LabelMorphology.__call__
(transforms.py lines 126-128): img = ndi.binary_dilation(img,
structure=structure, iterations=self.radius). -/
def labelMorphologyBinaryDilation {m n : Nat} (radius : Int)
    (g : Fin m → Fin n → Bool) : Fin m → Fin n → Bool :=
  binaryDilation g radius

/-- Embedding of the grayscale branches of LabelMorphology.__call__
(transforms.py lines 124-125, 130-131, 136-137, 142-143): each runs
for _ in range(self.radius): img = op(img), where op is the corresponding
ndi.grey_* pass with the cross footprint; the loop applies op radius times
and zero times when radius is not positive. -/
def greyLoop {α : Type} (op : α → α) (radius : Int) (x : α) : α :=
  op^[radius.toNat] x

/-- Embedding of the per-key guard of LabelMorphologyD.__call__
(transforms.py lines 173-175): a key whose radius is not positive is
skipped (continue), otherwise the LabelMorphology converter conv runs. -/
def labelMorphologyDStep {α : Type} (radius : Int) (conv : α → α) (x : α) : α :=
  if radius ≤ 0 then x else conv x

/-- The 2x2 test image with a single foreground pixel at the origin. -/
def oneCellGrid : Fin 2 → Fin 2 → Bool := fun i j => decide (i.val = 0 ∧ j.val = 0)

/-- Lookup in a Python dict literal given as an association list (Python
dict keys here are unique, so the first match is the value); a missing key
raises KeyError. -/
def dictGet {α : Type} (entries : List (Int × α)) (key : Int) : Option α :=
  (entries.find? (fun e => e.1 = key)).map (fun e => e.2)

/-- Embedding of the label normalization shared by RandLabelToMaskD and the
marginal croppers (transforms.py lines 361-364, 436-441, 539-544): a dict
is kept, a list or tuple is enumerated from 1, and a scalar becomes the
single entry with key 1. -/
inductive PyLabel (α : Type) where
  | dict (entries : List (Int × α))
  | list (l : List α)
  | scalar (x : α)

/-- Normalized id-to-value entries of a caller-supplied label. -/
def normalizeLabel {α : Type} : PyLabel α → List (Int × α)
  | .dict e => e
  | .list l => (List.range l.length).zip l |>.map (fun p => ((p.1 : Int) + 1, p.2))
  | .scalar x => [(1, x)]

/-- Embedding of RandLabelToMaskD.__call__ (transforms.py lines 352-372)
for one key, with an explicitly supplied select_msk_label (so randomize is
not invoked) and cls_label_key set: the length assertion at line 359 runs
first, the normalized dictionary value for the selected id is stored (line
367, KeyError when absent), then the RandLabelToMask converter builds the
submask (lines 369-370, code shared with selectMask).  Returns the new
(d[key], d[cls_label_key]) pair. -/
def randLabelToMaskD {α : Type} (img : NDA) (label : List (Int × α))
    (selectLabels : List Int) (selectLabel : Int) : Except PyErr (NDA × α) :=
  if label.length ≠ selectLabels.length then .error .assertionError
  else
    match dictGet label selectLabel with
    | none => .error .keyError
    | some v =>
      match selectMask img selectLabel with
      | .error e => .error e
      | .ok m => .ok (m, v)

/-- Shape behaviour of LabelMorphology.__call__ (transforms.py lines
107-118 and 147-150): the spatial rank is the rank after squeezing, ranks
other than 2 and 3 raise ValueError, a rank mismatch records the first
length-1 axis index via shape.index(1) and squeezes; the scipy morphology
pass itself preserves the shape of the squeezed array, and the recorded
axis is restored by np.expand_dims at the end. -/
def labelMorphologyShape (s : List Nat) : Except PyErr (List Nat) :=
  let sq := s.filter (fun d => d ≠ 1)
  if sq.length = 2 ∨ sq.length = 3 then
    if sq.length ≠ s.length then .ok (sq.insertIdx (s.indexOf 1) 1)
    else .ok s
  else .error .valueError

/-- Shape behaviour of DataLabelling.__call__ (transforms.py lines
188-206): identical squeeze discipline, the connected-component labelling
ndi.label preserves the shape, and the recorded axis is restored. -/
def dataLabellingShape (s : List Nat) : Except PyErr (List Nat) :=
  let sq := s.filter (fun d => d ≠ 1)
  if sq.length = 2 ∨ sq.length = 3 then
    if sq.length ≠ s.length then .ok (sq.insertIdx (s.indexOf 1) 1)
    else .ok s
  else .error .valueError

theorem fallback1_pos (k : Int) : 0 < fallback1 k := by
  unfold fallback1
  split <;> omega

theorem divRound_spec (k d : Int) (hk : 0 < k) :
    d ≤ divRound k d ∧ k ∣ divRound k d ∧
      ∀ x : Int, d ≤ x → k ∣ x → divRound k d ≤ x := by
  have hk0 : k ≠ 0 := ne_of_gt hk
  have hmod : k * ((-d) / k) + (-d) % k = -d := Int.ediv_add_emod (-d) k
  have hm0 : 0 ≤ (-d) % k := Int.emod_nonneg _ hk0
  have hmk : (-d) % k < k := Int.emod_lt_of_pos _ hk
  have hdvd : k ∣ divRound k d := by
    simp only [divRound, ceilDivI, if_pos hk]
    exact dvd_mul_left k _
  have hdr : divRound k d = d + (-d) % k := by
    simp only [divRound, ceilDivI, if_pos hk, neg_mul]
    have h1 : ((-d) / k) * k = -d - (-d) % k := by
      rw [mul_comm]
      omega
    omega
  refine ⟨by omega, hdvd, ?_⟩
  intro x hdx hkx
  by_contra hlt
  push_neg at hlt
  have hsub : k ∣ divRound k d - x := dvd_sub hdvd hkx
  have hposd : 0 < divRound k d - x := by omega
  have := Int.le_of_dvd hposd hsub
  omega

theorem divRound_idem (k d : Int) (hk : 0 < k) :
    divRound k (divRound k d) = divRound k d := by
  obtain ⟨hle, hdvd, hmin⟩ := divRound_spec k d hk
  obtain ⟨hle2, _, hmin2⟩ := divRound_spec k (divRound k d) hk
  exact le_antisymm (hmin2 (divRound k d) le_rfl hdvd) hle2

theorem divisible_size_idem (ks dims : List Int) :
    divisible_size ks (divisible_size ks dims) = divisible_size ks dims := by
  induction ks generalizing dims with
  | nil => simp [divisible_size]
  | cons k ks ih =>
    cases dims with
    | nil => simp [divisible_size]
    | cons d ds =>
      simp only [divisible_size, List.zipWith] at ih ⊢
      rw [divRound_idem _ _ (fallback1_pos k)]
      exact congrArg _ (ih ds)

theorem getD_zipWith_int (f : Int → Int → Int) (a b : List Int) (i : Nat)
    (hia : i < a.length) (hib : i < b.length) :
    (List.zipWith f a b).getD i 0 = f (a.getD i 0) (b.getD i 0) := by
  induction a generalizing b i with
  | nil => simp at hia
  | cons x xs ih =>
    cases b with
    | nil => simp at hib
    | cons y ys =>
      cases i with
      | zero => simp [List.zipWith]
      | succ j =>
        simp only [List.zipWith, List.getD_cons_succ]
        exact ih ys j (by simpa using hia) (by simpa using hib)

theorem rand2DTrace_some (v : Int) (ds : List Int) :
    rand2DTrace (some v) ds = List.replicate ds.length v := by
  induction ds with
  | nil => rfl
  | cons d ds ih => simp [rand2DTrace, rand2DStep, ih, List.replicate]

/-- C1: counterexample.  The claim says both random marginal croppers
re-draw the instance id on every call.  On one RandMarginalCrop2DByMaskD
instance (constructed with select_msk None), two calls whose generator
draws are 1 and then 2 use the ids [1, 1]: the second call reuses the
stored first draw instead of the fresh draw 2. -/
theorem C1_select_redraw_counterexample :
    rand2DTrace none [1, 2] = [1, 1] ∧ ([1, 1] : List Int) ≠ [1, 2] := by
  decide

/-- C1 (amended): RandMarginalCropByMaskD invokes randomize unconditionally
and so uses the fresh draw on every call, but RandMarginalCrop2DByMaskD
randomizes only while its stored select_msk is None, so the id drawn by the
first call is stored and reused by every later call. -/
theorem C1_select_redraw_amended :
    (∀ (st : Option Int) (ds : List Int), rand3DTrace st ds = ds) ∧
    (∀ (d : Int) (ds : List Int),
      rand2DTrace none (d :: ds) = d :: List.replicate ds.length d) := by
  constructor
  · intro st ds
    induction ds generalizing st with
    | nil => rfl
    | cons d ds ih => simp [rand3DTrace, rand3DStep, ih]
  · intro d ds
    simp [rand2DTrace, rand2DStep, rand2DTrace_some]

/-- C5: divisible_size returns, per axis, the smallest extent at least the
input extent that is a multiple of that axis's divisor, and an axis whose
divisor is not positive passes its extent through unchanged (in the code a
non-positive divisor is first replaced by 1 by fall_back_tuple, and
rounding up to a multiple of 1 is the identity on integer extents). -/
theorem C5_divisible_size_spec (ks dims : List Int) (i : Nat)
    (hlen : ks.length = dims.length) (hi : i < dims.length)
    (_hpos : ∀ d ∈ dims, 0 < d) :
    (divisible_size ks dims).length = dims.length ∧
    (0 < ks.getD i 0 →
      dims.getD i 0 ≤ (divisible_size ks dims).getD i 0 ∧
      ks.getD i 0 ∣ (divisible_size ks dims).getD i 0 ∧
      ∀ x : Int, dims.getD i 0 ≤ x → ks.getD i 0 ∣ x →
        (divisible_size ks dims).getD i 0 ≤ x) ∧
    (ks.getD i 0 ≤ 0 → (divisible_size ks dims).getD i 0 = dims.getD i 0) := by
  have hlen2 : (divisible_size ks dims).length = dims.length := by
    simp [divisible_size, List.length_zipWith, hlen]
  have hget : (divisible_size ks dims).getD i 0 =
      divRound (fallback1 (ks.getD i 0)) (dims.getD i 0) :=
    getD_zipWith_int _ ks dims i (by omega) hi
  refine ⟨hlen2, ?_, ?_⟩
  · intro hk
    have hf : fallback1 (ks.getD i 0) = ks.getD i 0 := by
      simp only [fallback1]
      rw [if_pos hk]
    rw [hget, hf]
    exact divRound_spec _ _ hk
  · intro hk
    have hf : fallback1 (ks.getD i 0) = 1 := by
      simp only [fallback1]
      rw [if_neg (by omega)]
    rw [hget, hf]
    simp [divRound, ceilDivI]

/-- C5: witness at the concrete divisors (16, 0) and extents (10, 7): the
first axis is rounded up to a positive multiple of 16 at least 10, and the
0-divisor axis passes 7 through unchanged. -/
theorem C5_divisible_size_spec_witness :
    ((10 : Int) ≤ (divisible_size [16, 0] [10, 7]).getD 0 0 ∧
      (16 : Int) ∣ (divisible_size [16, 0] [10, 7]).getD 0 0) ∧
    (divisible_size [16, 0] [10, 7]).getD 1 0 = 7 := by
  refine ⟨?_, ?_⟩
  · have h := (C5_divisible_size_spec [16, 0] [10, 7] 0 (by decide) (by decide)
      (by decide)).2.1 (by decide)
    exact ⟨h.1, h.2.1⟩
  · exact (C5_divisible_size_spec [16, 0] [10, 7] 1 (by decide) (by decide)
      (by decide)).2.2 (by decide)

/-- C6: the divisible-size computation is idempotent, its per-axis result
is at least the input extent, is a multiple of the divisor on positive
divisor axes, and leaves the extent unchanged on non-positive divisor
axes. -/
theorem C6_divisible_size_idem_claim :
    (∀ (ks dims : List Int),
      divisible_size ks (divisible_size ks dims) = divisible_size ks dims) ∧
    (∀ k d : Int,
      d ≤ divRound (fallback1 k) d ∧
      (0 < k → k ∣ divRound (fallback1 k) d) ∧
      (k ≤ 0 → divRound (fallback1 k) d = d)) := by
  refine ⟨divisible_size_idem, ?_⟩
  intro k d
  refine ⟨(divRound_spec _ d (fallback1_pos k)).1, ?_, ?_⟩
  · intro hk
    have hf : fallback1 k = k := by
      simp only [fallback1]
      rw [if_pos hk]
    rw [hf]
    exact (divRound_spec k d hk).2.1
  · intro hk
    have hf : fallback1 k = 1 := by
      simp only [fallback1]
      rw [if_neg (by omega)]
    rw [hf]
    simp [divRound, ceilDivI]

/-- C6: witness at divisor 16 and extent 10 (and divisor -1 for the
pass-through part). -/
theorem C6_divisible_size_idem_claim_witness :
    divisible_size [16] (divisible_size [16] [10]) = divisible_size [16] [10] ∧
    (10 : Int) ≤ divRound (fallback1 16) 10 ∧
    (16 : Int) ∣ divRound (fallback1 16) 10 ∧
    divRound (fallback1 (-1)) 10 = 10 :=
  ⟨C6_divisible_size_idem_claim.1 [16] [10],
    (C6_divisible_size_idem_claim.2 16 10).1,
    (C6_divisible_size_idem_claim.2 16 10).2.1 (by decide),
    (C6_divisible_size_idem_claim.2 (-1) 10).2.2 (by decide)⟩

theorem sliceLen_window (lo hi : Int) (n : Nat)
    (h0 : 0 ≤ lo) (h1 : lo ≤ hi) (h2 : hi ≤ (n : Int)) :
    sliceLen lo hi n = (hi - lo).toNat := by
  have ha : npIdx lo n = lo.toNat := by
    unfold npIdx
    rw [if_neg (by omega)]
    omega
  have hb : npIdx hi n = hi.toNat := by
    unfold npIdx
    rw [if_neg (by omega)]
    omega
  unfold sliceLen
  rw [ha, hb]
  omega

/-- C4: in the 3D branch of RandMarginalCrop2DByMaskD, every candidate
through-plane index for a submask whose bounding box spans z from 10 to 20
lies in [13, 17), and the through-plane window (z - neighbor_slices,
z + neighbor_slices + 1) selects exactly 2 * neighbor_slices + 1 slices
when it lies within the array bounds; with neighbor_slices = 2 the last
axis of the cropped output therefore has exactly 5 slices. -/
theorem C4_middle_third_neighbor_window (z : Int) (a : NDA)
    (hh ww zz : Nat) (l0 u0 l1 u1 : Int)
    (hz : z ∈ zChoices 10 20) (hsh : a.shape = [hh, ww, zz])
    (_hlo : 0 ≤ z - 2) (hhi : z + 2 + 1 ≤ (zz : Int)) :
    (13 ≤ z ∧ z < 17) ∧
    (∀ (ns len : Nat), 0 ≤ z - (ns : Int) → z + (ns : Int) + 1 ≤ (len : Int) →
      sliceLen (z - (ns : Int)) (z + (ns : Int) + 1) len = 2 * ns + 1) ∧
    (cropA a [(l0, u0), (l1, u1), (z - 2, z + 2 + 1)]).shape =
      [sliceLen l0 u0 hh, sliceLen l1 u1 ww, 5] := by
  have hz2 : 13 ≤ z ∧ z < 17 := by
    simp only [zChoices, Finset.mem_Ico] at hz
    omega
  have hgen : ∀ (ns len : Nat), 0 ≤ z - (ns : Int) →
      z + (ns : Int) + 1 ≤ (len : Int) →
      sliceLen (z - (ns : Int)) (z + (ns : Int) + 1) len = 2 * ns + 1 := by
    intro ns len h1 h2
    rw [sliceLen_window _ _ _ h1 (by omega) h2]
    omega
  refine ⟨hz2, hgen, ?_⟩
  have h5 : sliceLen (z - 2) (z + 2 + 1) zz = 5 := by
    have := hgen 2 zz (by push_cast; omega) (by push_cast; omega)
    simpa using this
  simp only [cropA, cropShape, hsh, List.zipWith, List.drop, List.append_nil, h5]

/-- C4: witness at z = 13 on a (4, 4, 20) array with neighbor window
(11, 16). -/
theorem C4_middle_third_neighbor_window_witness :
    (13 ≤ (13 : Int) ∧ (13 : Int) < 17) ∧
    (cropA ⟨[4, 4, 20], fun _ => 0⟩
        [((0 : Int), (4 : Int)), ((0 : Int), (4 : Int)),
          ((13 : Int) - 2, (13 : Int) + 2 + 1)]).shape =
      [sliceLen 0 4 4, sliceLen 0 4 4, 5] := by
  have h := C4_middle_third_neighbor_window 13 ⟨[4, 4, 20], fun _ => 0⟩
    4 4 20 0 4 0 4 (by decide) rfl (by decide) (by decide)
  exact ⟨h.1, h.2.2⟩

/-- C2: counterexample.  The claim says the morphology operator with
radius 0 is the identity in both binary and grayscale settings.  In the
binary setting LabelMorphology passes iterations = 0 to scipy, which by the
documented scipy semantics repeats the dilation pass until the result no
longer changes: on a 2x2 image with a single foreground pixel the result is
the stable all-foreground image, not the input.  The second conjunct
certifies that the returned image is indeed the fixpoint the scipy loop
stops at. -/
theorem C2_radius_zero_counterexample :
    labelMorphologyBinaryDilation 0 oneCellGrid ≠ oneCellGrid ∧
    dilStep (labelMorphologyBinaryDilation 0 oneCellGrid) =
      labelMorphologyBinaryDilation 0 oneCellGrid := by
  decide

/-- C2 (amended): radius 0 is the identity in the grayscale setting (the
range(radius) loop of LabelMorphology runs zero passes for any pass
operator), and the dictionary wrapper LabelMorphologyD skips any key whose
radius is not positive; the binary setting of LabelMorphology is not the
identity at radius 0 (see the counterexample). -/
theorem C2_radius_zero_amended :
    (∀ (α : Type) (op : α → α) (x : α), greyLoop op 0 x = x) ∧
    (∀ (α : Type) (radius : Int) (conv : α → α) (x : α),
      radius ≤ 0 → labelMorphologyDStep radius conv x = x) := by
  constructor
  · intro α op x
    rfl
  · intro α radius conv x h
    simp [labelMorphologyDStep, if_pos h]

/-- C2: witness for the amended claim at a concrete grayscale pass and a
skipped dictionary key. -/
theorem C2_radius_zero_amended_witness :
    greyLoop (fun n : Nat => n + 1) 0 3 = 3 ∧
    labelMorphologyDStep 0 (fun n : Nat => n + 1) 3 = 3 :=
  ⟨C2_radius_zero_amended.1 Nat (fun n => n + 1) 3,
    C2_radius_zero_amended.2 Nat 0 (fun n => n + 1) 3 (by decide)⟩

/-- C3: counterexample.  The claim says validation checks that the label
dictionary cardinality equals the number of distinct positive ids in the
mask.  On a mask whose cells are exactly the ids 1 and 2 with no background
0, the number of distinct positive ids is 2, yet the assertion
len(np.unique(mask)) - 1 == len(label) computes 2 - 1 = 1 and rejects a
2-entry dictionary. -/
theorem C3_label_count_counterexample :
    labelAssertOK ⟨[1, 2], fun i => (i : Int) + 1⟩ 2 = false ∧
    (posIds ⟨[1, 2], fun i => (i : Int) + 1⟩).card = 2 := by
  decide

/-- C3 (amended): the entry assertion compares the label-dictionary
cardinality with the number of distinct mask values minus one; whenever the
mask contains a background 0 cell and no negative values, this equals the
number of distinct positive ids, so the claimed scenarios hold for masks
with background: ids {1, 2} with a 2-entry dictionary pass and ids
{1, 2, 3} with the same dictionary raise; without a background cell the
assertion undercounts by one (see the counterexample). -/
theorem C3_label_count_amended (mask : NDA) (n : Nat)
    (h0 : (0 : Int) ∈ uniqSet mask) (hnn : ∀ v ∈ uniqSet mask, 0 ≤ v) :
    (labelAssertOK mask n = true ↔ n = (posIds mask).card) ∧
    labelAssertOK ⟨[1, 3], fun i => (i : Int)⟩ 2 = true ∧
    labelAssertOK ⟨[1, 4], fun i => (i : Int)⟩ 2 = false := by
  refine ⟨?_, by decide, by decide⟩
  have hsplit : ((uniqSet mask).filter (fun v => 0 < v)).card +
      ((uniqSet mask).filter (fun v => ¬ 0 < v)).card = (uniqSet mask).card :=
    Finset.filter_card_add_filter_neg_card_eq_card (fun v => 0 < v)
  have hneg : (uniqSet mask).filter (fun v => ¬ 0 < v) = {0} := by
    ext v
    simp only [Finset.mem_filter, Finset.mem_singleton, not_lt]
    constructor
    · rintro ⟨hv, hnp⟩
      have := hnn v hv
      omega
    · rintro rfl
      exact ⟨h0, le_rfl⟩
  rw [hneg, Finset.card_singleton] at hsplit
  unfold labelAssertOK posIds
  simp only [decide_eq_true_eq]
  omega

/-- C3: witness for the amended claim: on the mask with values {0, 1, 2}
the assertion accepts exactly the dictionary cardinality 2, which is the
number of distinct positive ids. -/
theorem C3_label_count_amended_witness :
    labelAssertOK ⟨[1, 3], fun i => (i : Int)⟩ 2 = true ↔
      2 = (posIds ⟨[1, 3], fun i => (i : Int)⟩).card :=
  (C3_label_count_amended ⟨[1, 3], fun i => (i : Int)⟩ 2 (by decide) (by decide)).1

/-- C7: for an explicitly supplied instance id, the mask selector returns,
in the single-channel case, a boolean submask whose nonzero cells are
exactly the cells of the input carrying that id (hence a subset of them),
and in the one-hot case the selected channel; and the dictionary-based
wrapper RandLabelToMaskD stores the label dictionary's value for that id. -/
theorem C7_mask_selector_roundtrip {α : Type} (img : NDA) (rest : List Nat)
    (id : Int) (label : List (Int × α)) (sls : List Int) (v : α)
    (hlen : label.length = sls.length) (hv : dictGet label id = some v) :
    (img.shape = 1 :: rest →
      selectMask img id = .ok (in1dMask img id) ∧
      (in1dMask img id).shape = img.shape ∧
      (∀ i, (in1dMask img id).get i ≠ 0 ↔ img.get i = id) ∧
      randLabelToMaskD img label sls id = .ok (in1dMask img id, v)) ∧
    (∀ c : Nat, img.shape = c :: rest → 1 < c → 0 ≤ id → id < (c : Int) →
      selectMask img id = .ok (takeChannel img rest id.toNat) ∧
      (∀ i, (takeChannel img rest id.toNat).get i =
        img.get (id.toNat * rest.prod + i)) ∧
      randLabelToMaskD img label sls id =
        .ok (takeChannel img rest id.toNat, v)) := by
  constructor
  · intro hsh
    have hsel : selectMask img id = .ok (in1dMask img id) := by
      simp [selectMask, hsh]
    refine ⟨hsel, rfl, ?_, ?_⟩
    · intro i
      by_cases h : img.get i = id <;> simp [in1dMask, h]
    · simp [randLabelToMaskD, hlen, hv, hsel]
  · intro c hsh hc h0 hidc
    have hsel : selectMask img id = .ok (takeChannel img rest id.toNat) := by
      simp only [selectMask, hsh]
      rw [if_pos hc, if_neg (show ¬ id < 0 by omega)]
      rw [if_pos ⟨h0, hidc⟩]
    refine ⟨hsel, fun i => rfl, ?_⟩
    simp [randLabelToMaskD, hlen, hv, hsel]

/-- C7: witness on the single-channel mask with values {0, 1}, id 1 and the
dictionary with the single entry 1 maps to 5. -/
theorem C7_mask_selector_roundtrip_witness :
    selectMask ⟨[1, 2], fun i => (i : Int)⟩ 1 =
      .ok (in1dMask ⟨[1, 2], fun i => (i : Int)⟩ 1) ∧
    randLabelToMaskD ⟨[1, 2], fun i => (i : Int)⟩ [((1 : Int), (5 : Int))] [1] 1 =
      .ok (in1dMask ⟨[1, 2], fun i => (i : Int)⟩ 1, (5 : Int)) := by
  have h := (C7_mask_selector_roundtrip ⟨[1, 2], fun i => (i : Int)⟩ [2] 1
    [((1 : Int), (5 : Int))] [1] (5 : Int) (by decide) (by decide)).1 rfl
  exact ⟨h.1, h.2.2.2⟩

theorem filter_ne_one_of_not_mem (a : List Nat) (ha : 1 ∉ a) :
    a.filter (fun d => d ≠ 1) = a := by
  rw [List.filter_eq_self]
  intro x hx
  simp only [ne_eq, decide_not, Bool.not_eq_true', decide_eq_false_iff_not]
  intro hx1
  exact ha (hx1 ▸ hx)

theorem indexOf_append_cons_one (a b : List Nat) (ha : 1 ∉ a) :
    (a ++ 1 :: b).indexOf 1 = a.length := by
  induction a with
  | nil => simp
  | cons x xs ih =>
    simp only [List.mem_cons, not_or] at ha
    rw [List.cons_append, List.indexOf_cons_ne _ (by omega), ih ha.2]
    rfl

theorem insertIdx_append_length (a b : List Nat) :
    (a ++ b).insertIdx a.length 1 = a ++ 1 :: b := by
  induction a with
  | nil => rfl
  | cons x xs ih =>
    simp only [List.cons_append, List.length_cons, List.insertIdx_succ_cons, ih]

/-- C8: on an input whose shape carries exactly one length-1 (channel) axis
around a spatial rank of 2 or 3, both the morphology operator and the
component labeller record the channel-axis index from the input shape
(shape.index(1), which is the actual position of the axis, not assumed to
be 0), squeeze it away, and restore it at that same index, so the output
shape equals the input shape. -/
theorem C8_channel_squeeze_restore (a b : List Nat)
    (ha : 1 ∉ a) (hb : 1 ∉ b)
    (hr : (a ++ b).length = 2 ∨ (a ++ b).length = 3) :
    labelMorphologyShape (a ++ 1 :: b) = .ok (a ++ 1 :: b) ∧
    dataLabellingShape (a ++ 1 :: b) = .ok (a ++ 1 :: b) ∧
    (a ++ 1 :: b).indexOf 1 = a.length := by
  have hfil : (a ++ 1 :: b).filter (fun d => d ≠ 1) = a ++ b := by
    rw [List.filter_append, filter_ne_one_of_not_mem a ha, List.filter_cons,
      if_neg (by simp), filter_ne_one_of_not_mem b hb]
  have hidx := indexOf_append_cons_one a b ha
  have hlen : (a ++ 1 :: b).length = (a ++ b).length + 1 := by
    simp only [List.length_append, List.length_cons]
    omega
  have hins : (a ++ b).insertIdx a.length 1 = a ++ 1 :: b :=
    insertIdx_append_length a b
  refine ⟨?_, ?_, hidx⟩
  · simp only [labelMorphologyShape, hfil, hidx]
    rw [if_pos hr, if_pos (by omega), hins]
  · simp only [dataLabellingShape, hfil, hidx]
    rw [if_pos hr, if_pos (by omega), hins]

/-- C8: witness on the shape (4, 1, 5), whose channel axis sits at index 1
rather than 0. -/
theorem C8_channel_squeeze_restore_witness :
    labelMorphologyShape [4, 1, 5] = .ok [4, 1, 5] ∧
    dataLabellingShape [4, 1, 5] = .ok [4, 1, 5] ∧
    ([4, 1, 5] : List Nat).indexOf 1 = 1 := by
  have h := C8_channel_squeeze_restore [4] [5] (by decide) (by decide) (by decide)
  simpa using h

set_option maxRecDepth 10000

/-- C9: counterexample.  The claim says the cropped image and cropped mask
always have equal shape.  On a one-hot two-channel input of shape
(2, 4, 4, 4) (channel 1 holding a 2x2x2 blob, label dictionary of
cardinality 1, keep_largest off, margin 0, divisor 1), the call succeeds
and stores an image of shape (1, 1, 1, 1, 4) but a mask of shape
(1, 1, 1, 1): the selected submask drops the channel axis while the image
keeps it, so the identical slice windows cut different axes. -/
theorem C9_equal_shape_counterexample :
    exceptShapes (randMarginalCropByMaskD
        ⟨[2, 4, 4, 4], fun _ => 7⟩
        ⟨[2, 4, 4, 4], fun n =>
          if n ∈ ([85, 86, 89, 90, 101, 102, 105, 106] : List Nat) then 1 else 0⟩
        {1} 0 1 false id 1) =
      some ([1, 1, 1, 1, 4], [1, 1, 1, 1]) ∧
    ([1, 1, 1, 1, 4] : List Nat) ≠ [1, 1, 1, 1] := by
  decide

/-- C10: counterexample.  The claim says every call whose mask has no
squeezable size-1 axis fails with NameError and only inputs carrying a
size-1 axis reach the output-producing branch.  This call on a (2, 4, 5)
mask with no size-1 axis (single id 1 in the second slab, margin 0,
divisor 1, keep_largest off) completes and produces cropped output: the
one-hot selection mask[[id]] introduces a fresh size-1 leading axis, so the
image variable is bound and no NameError is raised. -/
theorem C10_nameerror_counterexample :
    exceptShapes (randMarginalCropByMaskD
        ⟨[2, 4, 5], fun _ => 7⟩
        ⟨[2, 4, 5], fun n => if n ∈ ([26, 27, 31, 32] : List Nat) then 1 else 0⟩
        {1} 0 1 false id 1) =
      some ([1, 1, 1, 5], [1, 1, 1]) ∧
    ([2, 4, 5] : List Nat).filter (fun d => d ≠ 1) = [2, 4, 5] := by
  decide

theorem labelAssertOK_size (mask : NDA) (n : Nat)
    (h : labelAssertOK mask n = true) : ndaSize mask ≠ 0 := by
  intro h0
  have he : uniqSet mask = ∅ := by
    unfold uniqSet
    rw [h0]
    rfl
  unfold labelAssertOK at h
  rw [he] at h
  simp at h

theorem selectMask_ok_one_mem (img : NDA) (id : Int) (nm : NDA)
    (h : selectMask img id = .ok nm) (hsz : ndaSize img ≠ 0) : 1 ∈ nm.shape := by
  cases heq : img.shape with
  | nil => simp [selectMask, heq] at h
  | cons c rest =>
    by_cases hc : 1 < c
    · by_cases hneg : id < 0
      · simp only [selectMask, heq, if_pos hc, if_pos hneg] at h
        split at h
        · simp only [Except.ok.injEq] at h
          subst h
          simp [takeChannel]
        · simp at h
      · simp only [selectMask, heq, if_pos hc, if_neg hneg] at h
        split at h
        · simp only [Except.ok.injEq] at h
          subst h
          simp [takeChannel]
        · simp at h
    · simp only [selectMask, heq, if_neg hc, Except.ok.injEq] at h
      subst h
      have hc0 : c ≠ 0 := by
        intro h0
        apply hsz
        unfold ndaSize
        rw [heq, h0]
        simp
      have hc1 : c = 1 := by omega
      simp [in1dMask, heq, hc1]

theorem selectMask_error_eq (img : NDA) (id : Int) (e : PyErr)
    (h : selectMask img id = .error e) : e = .indexError := by
  cases heq : img.shape with
  | nil =>
    simp only [selectMask, heq, Except.error.injEq] at h
    exact h.symm
  | cons c rest =>
    by_cases hc : 1 < c
    · by_cases hneg : id < 0
      · simp only [selectMask, heq, if_pos hc, if_pos hneg] at h
        split at h
        · simp at h
        · simp only [Except.error.injEq] at h
          exact h.symm
      · simp only [selectMask, heq, if_pos hc, if_neg hneg] at h
        split at h
        · simp at h
        · simp only [Except.error.injEq] at h
          exact h.symm
    · simp [selectMask, heq, if_neg hc] at h

theorem filter_ne_one_length_ne (l : List Nat) (h1 : 1 ∈ l) :
    (l.filter (fun d => d ≠ 1)).length ≠ l.length := by
  induction l with
  | nil => simp at h1
  | cons x xs ih =>
    rw [List.filter_cons]
    by_cases hx : x = 1
    · subst hx
      rw [if_neg (by simp)]
      have := List.length_filter_le (fun d => decide (d ≠ 1)) xs
      simp only [List.length_cons]
      omega
    · rw [if_pos (by simp [hx])]
      have hmem : 1 ∈ xs := by
        rcases List.mem_cons.mp h1 with h | h
        · exact absurd h.symm hx
        · exact h
      have := ih hmem
      simp only [List.length_cons]
      omega

/-- C10 (amended): no call of RandMarginalCropByMaskD raises NameError at
the slicing step, whatever the inputs: the selected submask always carries
a size-1 axis (the one-hot selection mask[[id]] introduces a leading one,
and in the value-mask path the mask's own leading axis is 1 whenever the
label-count assertion passed), so the channel-squeeze branch that binds the
image variable is always taken; in particular a mask with no squeezable
size-1 axis does not fail with NameError but completes (see the
counterexample), with the one-hot branch slicing the image's leading axis. -/
theorem C10_no_nameerror (data mask : NDA) (labelKeys : Finset Int)
    (m k : Int) (kl : Bool) (klf : NDA → NDA) (draw : Int) :
    isNameError (randMarginalCropByMaskD data mask labelKeys m k kl klf draw) =
      false := by
  unfold randMarginalCropByMaskD
  split
  · rfl
  split
  · rfl
  rename_i hassert
  split
  · rfl
  split
  · rename_i e heq
    have he := selectMask_error_eq mask draw e heq
    subst he
    rfl
  rename_i nm0 heq
  have hassert2 : labelAssertOK mask labelKeys.card = true := not_not.mp hassert
  have hsz := labelAssertOK_size mask labelKeys.card hassert2
  have hone := selectMask_ok_one_mem mask draw nm0 heq hsz
  have hne := filter_ne_one_length_ne nm0.shape hone
  dsimp only
  rw [if_pos hne]
  split
  · rfl
  split
  · split
    · rfl
    · split
      · rename_i hx
        simp at hx
      · split <;> rfl
  · split
    · rfl
    · split
      · rename_i hx
        simp at hx
      · split <;> rfl

theorem bbox_3D_le (a : NDA) (r0 r1 c0 c1 z0 z1 : Nat)
    (h : bbox_3D a = some (r0, r1, c0, c1, z0, z1)) :
    r0 ≤ r1 ∧ c0 ≤ c1 ∧ z0 ≤ z1 := by
  unfold bbox_3D at h
  split at h
  · dsimp only at h
    split at h
    · simp only [Option.some.injEq, Prod.mk.injEq] at h
      obtain ⟨e1, e2, e3, e4, e5, e6⟩ := h
      subst e1
      subst e2
      subst e3
      subst e4
      subst e5
      subst e6
      exact ⟨Finset.min'_le _ _ (Finset.max'_mem _ _),
        Finset.min'_le _ _ (Finset.max'_mem _ _),
        Finset.min'_le _ _ (Finset.max'_mem _ _)⟩
    · cases h
  · cases h

theorem sliceLen_crop (c s : Int) (n : Nat) (hs : 0 ≤ s)
    (hlo : 0 ≤ 2 * c - s) (hhi : cropHi c s ≤ (n : Int)) :
    sliceLen (cropLo c s) (cropHi c s) n = s.toNat := by
  have hlo2 : cropLo c s = (2 * c - s) / 2 := Int.tdiv_eq_ediv hlo (by omega)
  have hhi2 : cropHi c s = (2 * c + s) / 2 := Int.tdiv_eq_ediv (by omega) (by omega)
  rw [hhi2] at hhi
  rw [hlo2, hhi2, sliceLen_window _ _ _ (by omega) (by omega) hhi]
  omega

/-- C9 (amended): for the 3D fixed-size variant on single-channel input
(mask and image of shape (1, h, w, z)), the image and mask are sliced with
the identical crop window, so with an in-bounds window the cropped image
and cropped mask have equal shape, and their common spatial shape is the
divisible-rounded extent of the margined bounding box per axis; the
equal-shape part fails for one-hot multi-channel input, where the submask
drops the channel axis the image keeps (see the counterexample). -/
theorem C9_single_channel_equal_shapes (data mask : NDA) (hh ww zz : Nat)
    (labelKeys : Finset Int) (m k : Int) (kl : Bool) (klf : NDA → NDA)
    (draw : Int) (r0 r1 c0 c1 z0 z1 : Nat) (s0 s1 s2 : Int)
    (hms : mask.shape = [1, hh, ww, zz]) (hds : data.shape = [1, hh, ww, zz])
    (h1 : hh ≠ 1) (h2 : ww ≠ 1) (h3 : zz ≠ 1)
    (hassert : labelAssertOK mask labelKeys.card = true)
    (hdraw : draw ∈ posIds mask) (hkey : draw ∈ labelKeys)
    (hklf : (applyKeepLargest kl klf (squeezeA (in1dMask mask draw))).shape =
      [hh, ww, zz])
    (hbb : bbox_3D (applyKeepLargest kl klf (squeezeA (in1dMask mask draw))) =
      some (r0, r1, c0, c1, z0, z1))
    (hm : 0 ≤ m)
    (hs0 : s0 = divRound (fallback1 k) ((r1 : Int) + m - ((r0 : Int) - m)))
    (hs1 : s1 = divRound (fallback1 k) ((c1 : Int) + m - ((c0 : Int) - m)))
    (hs2 : s2 = divRound (fallback1 k) ((z1 : Int) + m - ((z0 : Int) - m)))
    (hin0 : 0 ≤ 2 * (((r0 : Int) - m + ((r1 : Int) + m)) / 2) - s0)
    (hin0b : cropHi (((r0 : Int) - m + ((r1 : Int) + m)) / 2) s0 ≤ (hh : Int))
    (hin1 : 0 ≤ 2 * (((c0 : Int) - m + ((c1 : Int) + m)) / 2) - s1)
    (hin1b : cropHi (((c0 : Int) - m + ((c1 : Int) + m)) / 2) s1 ≤ (ww : Int))
    (hin2 : 0 ≤ 2 * (((z0 : Int) - m + ((z1 : Int) + m)) / 2) - s2)
    (hin2b : cropHi (((z0 : Int) - m + ((z1 : Int) + m)) / 2) s2 ≤ (zz : Int)) :
    exceptShapes (randMarginalCropByMaskD data mask labelKeys m k kl klf draw) =
      some ([1, s0.toNat, s1.toNat, s2.toNat],
        [1, s0.toNat, s1.toNat, s2.toNat]) := by
  obtain ⟨hr, hc, hz⟩ := bbox_3D_le _ _ _ _ _ _ _ hbb
  have hs0n : 0 ≤ s0 := by
    rw [hs0]
    have := (divRound_spec (fallback1 k) ((r1 : Int) + m - ((r0 : Int) - m))
      (fallback1_pos k)).1
    omega
  have hs1n : 0 ≤ s1 := by
    rw [hs1]
    have := (divRound_spec (fallback1 k) ((c1 : Int) + m - ((c0 : Int) - m))
      (fallback1_pos k)).1
    omega
  have hs2n : 0 ≤ s2 := by
    rw [hs2]
    have := (divRound_spec (fallback1 k) ((z1 : Int) + m - ((z0 : Int) - m))
      (fallback1_pos k)).1
    omega
  have hl0 := sliceLen_crop (((r0 : Int) - m + ((r1 : Int) + m)) / 2) s0 hh
    hs0n hin0 hin0b
  have hl1 := sliceLen_crop (((c0 : Int) - m + ((c1 : Int) + m)) / 2) s1 ww
    hs1n hin1 hin1b
  have hl2 := sliceLen_crop (((z0 : Int) - m + ((z1 : Int) + m)) / 2) s2 zz
    hs2n hin2 hin2b
  have hsel : selectMask mask draw = .ok (in1dMask mask draw) := by
    simp [selectMask, hms]
  have hsh0 : (in1dMask mask draw).shape = [1, hh, ww, zz] := by
    simp [in1dMask, hms]
  have hfil : List.filter (fun d => d ≠ 1) [1, hh, ww, zz] = [hh, ww, zz] := by
    simp [List.filter_cons, h1, h2, h3]
  have hsqd : (squeezeA data).shape = [hh, ww, zz] := by
    simp only [squeezeA, hds]
    exact hfil
  unfold randMarginalCropByMaskD
  rw [if_neg (by rw [hds, hms]; simp)]
  rw [if_neg (not_not_intro hassert)]
  rw [if_neg (Finset.ne_empty_of_mem hdraw)]
  rw [hsel]
  dsimp only
  rw [hsh0, hfil]
  rw [show ([hh, ww, zz] : List Nat).length = 3 from rfl,
    show ([1, hh, ww, zz] : List Nat).length = 4 from rfl]
  rw [if_neg (by simp)]
  simp only [if_pos (show (3 : Nat) ≠ 4 by omega)]
  rw [if_neg (show ¬ (3 : Nat) = 2 by omega)]
  rw [hbb]
  dsimp only
  rw [if_pos hkey]
  simp only [exceptShapes, expandDims, cropA, cropShape, hsqd, hklf,
    List.indexOf_cons_self, divisible_size, List.zipWith, List.drop,
    List.headD, List.append_nil, List.insertIdx]
  rw [← hs0, ← hs1, ← hs2]
  simp only [hl0, hl1, hl2]
  rfl

/-- C9: witness for the amended claim on a single-channel (1, 4, 4, 4)
input whose instance 1 occupies the 2x2x2 block at offsets 1..2 per axis,
with margin 0 and divisor 1: image and mask crops both get shape
(1, 1, 1, 1), the divisible-rounded extent of the margined box. -/
theorem C9_single_channel_equal_shapes_witness :
    exceptShapes (randMarginalCropByMaskD
        ⟨[1, 4, 4, 4], fun _ => 7⟩
        ⟨[1, 4, 4, 4], fun n =>
          if n ∈ ([21, 22, 25, 26, 37, 38, 41, 42] : List Nat) then 1 else 0⟩
        {1} 0 1 false id 1) =
      some ([1, 1, 1, 1], [1, 1, 1, 1]) :=
  C9_single_channel_equal_shapes
    ⟨[1, 4, 4, 4], fun _ => 7⟩
    ⟨[1, 4, 4, 4], fun n =>
      if n ∈ ([21, 22, 25, 26, 37, 38, 41, 42] : List Nat) then 1 else 0⟩
    4 4 4 {1} 0 1 false id 1
    1 2 1 2 1 2 1 1 1
    rfl rfl (by decide) (by decide) (by decide) (by decide) (by decide)
    (by decide) (by decide) (by decide) (by decide) (by decide) (by decide)
    (by decide) (by decide) (by decide) (by decide) (by decide) (by decide)
    (by decide)
